import Mathlib

/-!
Verification of the voice-live-agent repository's call/session relay spec.

The repository's backend relay (Call Registry, Orchestrator, Event Fan-out)
ships only as its spec here; those definitions are modelled from the spec and
say so in their doc comments.  Everything else (audio sample conversion,
base64 framing, the UI transcript handlers, the agent-persona store, the
outbound-call UI guard) is embedded directly from the TypeScript source.
-/

namespace VoiceLive

/-! ## Call Registry (modelled from the spec, §3 and §4.1) -/

/-- Direction of a call session (spec §3: inbound | outbound). -/
inductive Direction where
  | inbound
  | outbound
deriving DecidableEq, Repr

/-- Status of a call session (spec §3: dialing, connecting, connected,
ended, disconnected). -/
inductive CallStatus where
  | dialing
  | connecting
  | connected
  | ended
  | disconnected
deriving DecidableEq, Repr

/-- Terminal statuses (spec glossary: `ended` or `disconnected`; no further
transitions permitted). -/
def CallStatus.isTerminal : CallStatus → Bool
  | .ended => true
  | .disconnected => true
  | _ => false

/-- Modelled from the spec: one Call Session record (spec §3 Data Model):
identity, direction, optional counterpart phone number, status. -/
structure Session where
  callId : Nat
  direction : Direction
  phoneNumber : Option String
  status : CallStatus
deriving DecidableEq, Repr

/-- Registry change events emitted to the Event Fan-out (spec §4.3). -/
inductive RegEvent where
  | callCreated (callId : Nat)
  | callStatus (callId : Nat) (status : CallStatus)
  | callRemoved (callId : Nat)
deriving DecidableEq, Repr

/-- Modelled from the spec: the in-memory Call Registry state (spec §4.1),
sessions in creation order plus a fresh-identifier counter; `events` is the
log of change events handed to the Event Fan-out. -/
structure RegState where
  sessions : List Session
  nextId : Nat
  events : List RegEvent
deriving DecidableEq, Repr

/-- The registry at process start: empty. -/
def initialRegState : RegState := ⟨[], 0, []⟩

/-- Modelled from the spec: `getCall(callId) -> Session | NotFound`
(spec §4.1). -/
def getCall (st : RegState) (c : Nat) : Option Session :=
  st.sessions.find? (fun s => s.callId = c)

/-- Modelled from the spec: `createCall(direction, phoneNumber?) -> callId`
(spec §4.1): allocates a fresh unique identifier, inserts a session with
status `dialing` (outbound) or `connecting` (inbound), returns the
identifier.  (`CapacityError` cannot occur in the single-replica model.) -/
def createCall (st : RegState) (dir : Direction) (phone : Option String) :
    RegState × Nat :=
  let cid := st.nextId
  let st0 : CallStatus := match dir with
    | .outbound => .dialing
    | .inbound => .connecting
  (⟨st.sessions ++ [⟨cid, dir, phone, st0⟩], st.nextId + 1,
    st.events ++ [.callCreated cid]⟩, cid)

/-- Modelled from the spec: `updateStatus(callId, newStatus)` (spec §4.1):
transitions the session's status; no-op (idempotent) if the call is already
in a terminal status; emits a Call Registry change event on every accepted
transition.  Unknown identifiers leave the registry unchanged. -/
def updateStatus (st : RegState) (c : Nat) (new : CallStatus) : RegState :=
  match getCall st c with
  | none => st
  | some s =>
    if s.status.isTerminal then st
    else
      ⟨st.sessions.map (fun t => if t.callId = c then { t with status := new } else t),
       st.nextId, st.events ++ [.callStatus c new]⟩

/-- Modelled from the spec: `removeCall(callId)` (spec §4.1): deletes the
entry; only callable from terminal status; idempotent. -/
def removeCall (st : RegState) (c : Nat) : RegState :=
  match getCall st c with
  | none => st
  | some s =>
    if s.status.isTerminal then
      ⟨st.sessions.filter (fun t => ¬ (t.callId = c)), st.nextId,
       st.events ++ [.callRemoved c]⟩
    else st

/-- Modelled from the spec: `listActive() -> Session[]` (spec §4.1): sessions
not in terminal status, ordered by creation time. -/
def listActive (st : RegState) : List Session :=
  st.sessions.filter (fun s => ¬ s.status.isTerminal)

/-- Modelled from the spec: `hangup(callId)` (spec §4.4): forces the registry
entry to `ended`, whatever its current state; idempotent — hanging up an
already-ended call is a no-op, not an error (the model has no error
channel: hangup is a total function on registry states). -/
def hangup (st : RegState) (c : Nat) : RegState :=
  match getCall st c with
  | none => st
  | some s =>
    if s.status = .ended then st
    else
      ⟨st.sessions.map (fun t => if t.callId = c then { t with status := .ended } else t),
       st.nextId, st.events ++ [.callStatus c .ended]⟩

/-- ECMAScript `String.prototype.trim`: strip leading and trailing
whitespace. -/
def jsTrim (s : String) : String :=
  ⟨((s.data.dropWhile Char.isWhitespace).reverse.dropWhile
      Char.isWhitespace).reverse⟩

/-! ## Orchestrator (modelled from the spec, §4.4 and §7) -/

/-- Error taxonomy of the relay core (spec §7). -/
inductive OrchError where
  | invalidRequest
  | notConfigured
  | upstreamError
  | notFound
  | capacityError
deriving DecidableEq, Repr

/-- Modelled from the spec: an inbound telephony webhook payload (spec §4.4
`acceptInboundCall`).  `incomingCallNotification` is whether the payload
validates as an actual incoming-call notification; `answerSucceeds` is
whether answering the call and opening the Audio Bridge succeeds (the
internal-processing outcome, abstracted as the environment's choice). -/
structure WebhookPayload where
  incomingCallNotification : Bool
  callerNumber : Option String
  answerSucceeds : Bool
deriving DecidableEq, Repr

/-- Modelled from the spec: `acceptInboundCall(webhookPayload)` (spec §4.4,
§7): validates the payload, registers a `connecting` session, answers the
call.  Fails fast — no throw escapes to the webhook layer, so the HTTP
status returned to the upstream webhook (the second component) is always
200; internal errors are surfaced as a terminal call state (`disconnected`
registry transition) rather than an HTTP error. -/
def acceptInboundCall (st : RegState) (p : WebhookPayload) : RegState × Nat :=
  if p.incomingCallNotification then
    let r := createCall st .inbound p.callerNumber
    if p.answerSucceeds then (r.1, 200)
    else (updateStatus r.1 r.2 .disconnected, 200)
  else (st, 200)

/-- Modelled from the spec: `startOutboundCall(targetNumber, agendaText)`
(spec §4.4): validates the target number is present, registers a `dialing`
session, initiates the underlying telephony call.  Fails with
`InvalidRequest` if the number is empty, `NotConfigured` if no source phone
number exists, `UpstreamError` if the telephony placement itself fails
(surfaced as a terminal call status, spec §7).  `telephonyOk` abstracts the
vendor placement outcome; the third component records whether a telephony
call was placed at all. -/
def startOutboundCall (st : RegState) (sourceNumber : Option String)
    (telephonyOk : Bool) (targetNumber _agendaText : String) :
    RegState × Except OrchError Nat × Bool :=
  if jsTrim targetNumber = "" then (st, .error .invalidRequest, false)
  else
    match sourceNumber with
    | none => (st, .error .notConfigured, false)
    | some _ =>
      let r := createCall st .outbound (some targetNumber)
      if telephonyOk then (r.1, .ok r.2, true)
      else (updateStatus r.1 r.2 .disconnected, .error .upstreamError, true)

/-! ## Operation traces over the registry -/

/-- One registry-driving operation, for quantifying over arbitrary operation
sequences (spec §4.1/§4.4). -/
inductive RegOp where
  | create (dir : Direction) (phone : Option String)
  | update (c : Nat) (s : CallStatus)
  | remove (c : Nat)
  | hang (c : Nat)
deriving DecidableEq, Repr

/-- Run a sequence of registry operations from a state, collecting the call
identifiers returned by the `createCall` invocations, in order. -/
def runOps (st : RegState) : List RegOp → RegState × List Nat
  | [] => (st, [])
  | op :: rest =>
    match op with
    | .create d p =>
      let r := createCall st d p
      let r2 := runOps r.1 rest
      (r2.1, r.2 :: r2.2)
    | .update c s => runOps (updateStatus st c s) rest
    | .remove c => runOps (removeCall st c) rest
    | .hang c => runOps (hangup st c) rest

/-- Well-formed registry states: every session's identifier was allocated
below the fresh-identifier counter.  Holds at `initialRegState` and is
preserved by every operation. -/
def RegState.WF (st : RegState) : Prop :=
  ∀ s ∈ st.sessions, s.callId < st.nextId

/-! ## Audio sample conversion (src/unnamed/part_005, VoiceInterface)

The TypeScript helpers `float32ToPcm16` and `pcm16ToFloat32` compute in IEEE
double precision and store through `Float32Array` / `Int16Array`.  Samples
are modelled as exact rationals; the only inexact step in either function is
the store of `pcm16[i] / divisor` into a `Float32Array`, modelled by
`roundF32` (round to nearest, ties to even, 24-bit significand — the double
division followed by the float32 store agrees with a single rounding of the
exact quotient on every representable input here, since no quotient sits
within double-rounding distance of a float32 tie).  The later product
`s * 0x8000` / `s * 0x7FFF` of a float32 by a 15-bit integer is exact in
double precision, and the `Int16Array` store applies ECMAScript `ToInt16`:
truncation toward zero, then reduction modulo 2^16 into [-2^15, 2^15). -/

/-- Round a rational to the nearest integer, ties to even (IEEE default). -/
def rne (x : ℚ) : ℤ :=
  if x - ⌊x⌋ < 1/2 then ⌊x⌋
  else if x - ⌊x⌋ > 1/2 then ⌊x⌋ + 1
  else if ⌊x⌋ % 2 = 0 then ⌊x⌋ else ⌊x⌋ + 1

/-- Round a rational to the nearest IEEE-754 binary32 value (normal range;
round to nearest, ties to even on a 24-bit significand: the magnitude is
scaled by the power of two putting it in `[2^23, 2^24)`, rounded to an
integer, and scaled back). -/
def roundF32 (q : ℚ) : ℚ :=
  if q = 0 then 0
  else
    (if q < 0 then -1 else 1) *
      (rne (|q| / 2 ^ (Int.log 2 |q| - 23)) : ℚ) * 2 ^ (Int.log 2 |q| - 23)

/-- ECMAScript truncation toward zero (the `truncate` step of `ToInt16`). -/
def jsTrunc (q : ℚ) : ℤ :=
  if q < 0 then ⌈q⌉ else ⌊q⌋

/-- ECMAScript `ToInt16`: truncate, reduce modulo 2^16, reinterpret as a
signed 16-bit value. -/
def toInt16 (q : ℚ) : ℤ :=
  if 32768 ≤ jsTrunc q % 65536 then jsTrunc q % 65536 - 65536
  else jsTrunc q % 65536

/-- `float32ToPcm16` (src/unnamed/part_005:258): clamp each sample to
[-1, 1], scale negatives by 0x8000 and non-negatives by 0x7FFF, store into
an `Int16Array`. -/
def float32ToPcm16 (float32Array : List ℚ) : List ℤ :=
  float32Array.map (fun x =>
    let s := max (-1) (min 1 x)
    toInt16 (if s < 0 then s * 0x8000 else s * 0x7FFF))

/-- `pcm16ToFloat32` (src/unnamed/part_005:267): divide negative samples by
0x8000 and non-negative ones by 0x7FFF, store into a `Float32Array`. -/
def pcm16ToFloat32 (pcm16Array : List ℤ) : List ℚ :=
  pcm16Array.map (fun (v : ℤ) =>
    roundF32 ((v : ℚ) / (if v < 0 then 0x8000 else 0x7FFF)))

/-! ## Base64 audio framing (src/unnamed/part_005, VoiceInterface)

`arrayBufferToBase64` reads the `Int16Array`'s underlying buffer as bytes
(little-endian, two bytes per sample), builds a binary string and calls the
platform `btoa`; `base64ToInt16Array` calls `atob`, rebuilds the bytes and
reinterprets pairs as signed 16-bit values.  Byte strings are modelled as
`List ℕ` (each element < 256) and base64 text as `List Char`; `btoa`/`atob`
are the standard RFC 4648 encoder and (padding-checking) decoder the
platform provides. -/

/-- The base64 alphabet, index 0–63. -/
def b64chars : List Char :=
  "ABCDEFGHIJKLMNOPQRSTUVWXYZabcdefghijklmnopqrstuvwxyz0123456789+/".toList

/-- Sextet to base64 character. -/
def encChar (s : ℕ) : Char := b64chars.getD s 'A'

/-- Base64 character back to its sextet. -/
def decChar (ch : Char) : ℕ := (b64chars.indexOf ch)

/-- `btoa`: standard base64 encoding of a byte string, three bytes to four
characters, with `=` padding. -/
def btoa : List ℕ → List Char
  | [] => []
  | [b1] => [encChar (b1 / 4), encChar (b1 % 4 * 16), '=', '=']
  | [b1, b2] =>
    [encChar (b1 / 4), encChar (b1 % 4 * 16 + b2 / 16), encChar (b2 % 16 * 4), '=']
  | b1 :: b2 :: b3 :: rest =>
    encChar (b1 / 4) :: encChar (b1 % 4 * 16 + b2 / 16) ::
      encChar (b2 % 16 * 4 + b3 / 64) :: encChar (b3 % 64) :: btoa rest

/-- `atob`: standard base64 decoding of well-padded base64 text, four
characters to three bytes (`=` padding trims to two or one). -/
def atob : List Char → List ℕ
  | c1 :: c2 :: c3 :: c4 :: rest =>
    if c3 = '=' ∧ c4 = '=' ∧ rest = [] then
      [decChar c1 * 4 + decChar c2 / 16]
    else if c4 = '=' ∧ rest = [] then
      [decChar c1 * 4 + decChar c2 / 16, decChar c2 % 16 * 16 + decChar c3 / 4]
    else
      (decChar c1 * 4 + decChar c2 / 16) :: (decChar c2 % 16 * 16 + decChar c3 / 4) ::
        (decChar c3 % 4 * 64 + decChar c4) :: atob rest
  | _ => []

/-- A signed 16-bit sample as its unsigned 16-bit bit pattern. -/
def toUInt16 (v : ℤ) : ℕ := (v % 65536).toNat

/-- An unsigned 16-bit bit pattern read back as a signed sample. -/
def fromUInt16 (u : ℕ) : ℤ :=
  if 32768 ≤ u then (u : ℤ) - 65536 else u

/-- The `Int16Array`'s underlying buffer: two little-endian bytes per
sample. -/
def int16sToBytes : List ℤ → List ℕ
  | [] => []
  | v :: rest => toUInt16 v % 256 :: toUInt16 v / 256 :: int16sToBytes rest

/-- `new Int16Array(bytes.buffer)`: reinterpret byte pairs (little-endian)
as signed 16-bit values; a trailing odd byte is not part of any element. -/
def bytesToInt16s : List ℕ → List ℤ
  | lo :: hi :: rest => fromUInt16 (lo % 256 + hi % 256 * 256) :: bytesToInt16s rest
  | _ => []

/-- `arrayBufferToBase64` (src/unnamed/part_005:275) applied to an
`Int16Array`'s buffer. -/
def arrayBufferToBase64 (samples : List ℤ) : List Char :=
  btoa (int16sToBytes samples)

/-- `base64ToInt16Array` (src/unnamed/part_005:284). -/
def base64ToInt16Array (base64 : List Char) : List ℤ :=
  bytesToInt16s (atob base64)

/-! ## UI transcript consumers (src/src/ui/app/page.tsx) -/

/-- An SSE `transcript` event as the UI receives it
(`{ type, callId, role, text, partial }`); the in-progress flag
(`data.partial`) is `partialFlag` here. -/
structure SSETranscriptEvent where
  callId : String
  role : String
  text : String
  partialFlag : Bool
deriving DecidableEq, Repr

/-- The `case 'transcript'` branch of the global SSE handler
(src/src/ui/app/page.tsx:1370): append the fragment to the displayed
transcript when its call identifier equals the current call's
(`transcript.callId === currentCallId`, `null` current call matches
nothing) and the fragment is not partial (`!transcript.partial`). -/
def handleTranscriptEvent (currentCallId : Option String)
    (ev : SSETranscriptEvent) (transcripts : List (String × String)) :
    List (String × String) :=
  if some ev.callId = currentCallId ∧ ev.partialFlag = false then
    transcripts ++ [(ev.role, ev.text)]
  else transcripts

/-- The `onmessage` handler of the per-call transcript stream opened by
`subscribeToTranscripts` (src/src/ui/app/page.tsx:233): append when
`data.role && data.text && !data.partial` (string truthiness: non-empty). -/
def subscribeToTranscriptsOnMessage (ev : SSETranscriptEvent)
    (transcripts : List (String × String)) : List (String × String) :=
  if ev.role ≠ "" ∧ ev.text ≠ "" ∧ ev.partialFlag = false then
    transcripts ++ [(ev.role, ev.text)]
  else transcripts

/-! ## Agent personas (src/src/ui/components/useAgentTypes.ts) -/

/-- One agent persona (`AgentType` in useAgentTypes.ts). -/
structure AgentType where
  id : String
  name : String
  agenda : String
  isBuiltIn : Bool
deriving DecidableEq, Repr

/-- `BUILT_IN_AGENT_TYPES` (useAgentTypes.ts:13): the four fixed built-in
personas, verbatim (newlines as escapes). -/
def BUILT_IN_AGENT_TYPES : List AgentType :=
  [⟨"customer_satisfaction", "📊 Customer Satisfaction Survey",
    "You are Ava, an AI Assistant conducting a customer satisfaction survey. Follow this agenda:\n1. Greet the customer warmly and introduce yourself as Ava, an AI assistant\n2. Ask about their recent experience with our service\n3. On a scale of 1-10, ask how likely they are to recommend us\n4. Ask what we could improve\n5. Thank them for their time and end the call politely\n\nLANGUAGE: Start speaking in English. If the user responds in a different language, seamlessly switch to their language for the rest of the conversation. Be conversational and natural. If they go off-topic, gently guide them back.", true⟩,
   ⟨"delivery_status", "📦 Delivery Status Check",
    "You are Ava, an AI Assistant helping with delivery status inquiries. Follow this agenda:\n1. Greet the customer warmly and introduce yourself as Ava, an AI delivery assistant\n2. Ask for their order number or tracking ID\n3. Confirm the delivery address with them\n4. Ask if there have been any issues with the delivery (missing packages, damaged items, wrong address)\n5. Provide an approximate delivery timeframe or next steps\n6. Ask if there's anything else you can help with regarding their delivery\n7. Thank them and end the call politely\n\nLANGUAGE: Start speaking in English. If the user responds in a different language, seamlessly switch to their language for the rest of the conversation. Be helpful and reassuring. If they have concerns, acknowledge them and offer solutions.", true⟩,
   ⟨"new_customer", "👋 New Customer Welcome",
    "You are Ava, an AI Assistant welcoming new customers. Follow this agenda:\n1. Warmly greet them and introduce yourself as Ava, their AI onboarding assistant\n2. Congratulate them on joining and express excitement to have them as a customer\n3. Briefly explain the key benefits of their new account/service\n4. Ask if they have any questions about getting started\n5. Offer to walk them through common features or next steps\n6. Ask if there's anything specific they're hoping to accomplish\n7. Thank them for choosing us and wish them a great experience\n\nLANGUAGE: Start speaking in English. If the user responds in a different language, seamlessly switch to their language for the rest of the conversation. Be enthusiastic and welcoming. Make them feel valued as a new customer.", true⟩,
   ⟨"repair_support", "🔧 Repair & Support Ticket",
    "You are Ava, an AI Assistant for repair and support triage. Follow this agenda:\n1. Greet the customer and introduce yourself as Ava, the repair support assistant\n2. Ask what product or service they need help with\n3. Ask them to describe the issue they're experiencing\n4. Ask when the issue started and if anything changed before it began\n5. Ask if they've tried any troubleshooting steps already\n6. Based on their responses, determine if this needs a support ticket or work order\n7. Confirm the details: their name, contact info, and summary of the issue\n8. Let them know a ticket has been created and explain next steps\n9. Thank them and end the call\n\nLANGUAGE: Start speaking in English. If the user responds in a different language, seamlessly switch to their language for the rest of the conversation. Be patient and thorough. Gather all relevant details to create a complete support ticket.", true⟩]
/-- `addAgentType(name, agenda)` (useAgentTypes.ts:108): appends a custom
persona whose identifier is `custom_` plus `Date.now()` (the clock reading
is a parameter here) to the custom list. -/
def addAgentType (now : Nat) (name agenda : String)
    (customTypes : List AgentType) : List AgentType :=
  customTypes ++ [⟨"custom_" ++ toString now, name, agenda, false⟩]

/-- `updateAgentType(id, updates)` (useAgentTypes.ts:119): maps over the
custom list, spreading the partial update (`name?`/`agenda?`) over the
matching entry; identifiers and `isBuiltIn` are untouched. -/
def updateAgentType (id : String) (name? agenda? : Option String)
    (customTypes : List AgentType) : List AgentType :=
  customTypes.map (fun t =>
    if t.id = id then
      { t with name := name?.getD t.name, agenda := agenda?.getD t.agenda }
    else t)

/-- `deleteAgentType(id)` (useAgentTypes.ts:125): filters the custom list. -/
def deleteAgentType (id : String) (customTypes : List AgentType) :
    List AgentType :=
  customTypes.filter (fun t => ¬ (t.id = id))

/-- `allTypes` (useAgentTypes.ts:106): built-ins first, then the custom
list. -/
def allTypes (customTypes : List AgentType) : List AgentType :=
  BUILT_IN_AGENT_TYPES ++ customTypes

/-- `getAgentType(id)` (useAgentTypes.ts:129): first entry of `allTypes`
with the given identifier. -/
def getAgentType (id : String) (customTypes : List AgentType) :
    Option AgentType :=
  (allTypes customTypes).find? (fun t => t.id = id)

/-- One user operation on the persona store, for quantifying over arbitrary
operation sequences. -/
inductive AgentOp where
  | add (now : Nat) (name agenda : String)
  | update (id : String) (name? agenda? : Option String)
  | delete (id : String)
deriving DecidableEq, Repr

/-- Apply one persona operation to the custom list. -/
def applyAgentOp (customTypes : List AgentType) : AgentOp → List AgentType
  | .add now name agenda => addAgentType now name agenda customTypes
  | .update id n a => updateAgentType id n a customTypes
  | .delete id => deleteAgentType id customTypes

/-- Apply a sequence of persona operations. -/
def applyAgentOps (customTypes : List AgentType) (ops : List AgentOp) :
    List AgentType :=
  ops.foldl applyAgentOp customTypes

/-! ## Outbound-call UI guard (src/src/ui/app/page.tsx, startPhoneCall) -/

/-- The slice of the page's React state that `startPhoneCall` touches. -/
structure UIState where
  phoneNumber : String
  agenda : String
  phoneCallError : Option String
  isCallingPhone : Bool
  transcripts : List (String × String)
  callDirection : Option Direction
  currentPhoneNumber : String
deriving DecidableEq, Repr

/-- The HTTP request `startPhoneCall` would issue to
`POST /api/calls/outbound`. -/
structure OutboundRequest where
  targetPhoneNumber : String
  agenda : String
deriving DecidableEq, Repr

/-- `startPhoneCall` (src/src/ui/app/page.tsx:1395) up to issuing the fetch:
with a blank number (`!phoneNumber.trim()`) it sets the error message and
returns without any HTTP request; otherwise it clears the error, marks the
call in progress, resets the transcript, records the outbound direction and
number, and issues the request. -/
def startPhoneCall (st : UIState) : UIState × Option OutboundRequest :=
  if jsTrim st.phoneNumber = "" then
    ({ st with phoneCallError := some "Please enter a phone number" }, none)
  else
    ({ st with
        phoneCallError := none
        isCallingPhone := true
        transcripts := []
        callDirection := some .outbound
        currentPhoneNumber := st.phoneNumber },
     some ⟨st.phoneNumber, st.agenda⟩)

/-! ## Registry lemmas -/

/-- `find?` by call identifier commutes with a map that preserves call
identifiers. -/
theorem find?_map_comm (f : Session → Session)
    (hf : ∀ t, (f t).callId = t.callId) (c : Nat) :
    ∀ l : List Session,
      (l.map f).find? (fun s => s.callId = c) =
        (l.find? (fun s => s.callId = c)).map f := by
  intro l
  induction l with
  | nil => rfl
  | cons t l ih =>
    by_cases hc : t.callId = c
    · rw [List.map_cons, List.find?_cons_of_pos _ (by simp [hf, hc]),
        List.find?_cons_of_pos _ (by simp [hc]), Option.map_some']
    · rw [List.map_cons, List.find?_cons_of_neg _ (by simp [hf, hc]),
        List.find?_cons_of_neg _ (by simp [hc]), ih]

theorem getCall_updateStatus_of_terminal {st : RegState} {c : Nat} {s : Session}
    (hget : getCall st c = some s) (hterm : s.status.isTerminal = true)
    (d : Nat) (ns : CallStatus) :
    getCall (updateStatus st d ns) c = some s := by
  unfold updateStatus
  cases hd : getCall st d with
  | none => exact hget
  | some s' =>
    dsimp only
    by_cases ht : s'.status.isTerminal = true
    · rw [if_pos ht]; exact hget
    · rw [if_neg ht]
      have hcd : c ≠ d := by
        rintro rfl
        rw [hget] at hd
        injection hd with h
        exact ht (h ▸ hterm)
      show ((st.sessions.map _).find? _) = _
      rw [find?_map_comm _ (fun t => by by_cases h : t.callId = d <;> simp [h]) c
        st.sessions]
      rw [show st.sessions.find? (fun s => s.callId = c) = some s from hget]
      have hs : s.callId = c := by simpa using List.find?_some hget
      simp [Option.map_some', hs, hcd]

/-- C1: once a call session's status is terminal (`ended` or
`disconnected`), no sequence of subsequent `updateStatus` calls — whatever
their targets and requested statuses — changes the session: every later
transition attempt on it is a no-op and it stays in its terminal status. -/
theorem terminal_status_is_forever (st : RegState) (c : Nat) (s : Session)
    (ops : List (Nat × CallStatus))
    (hget : getCall st c = some s) (hterm : s.status.isTerminal = true) :
    getCall (ops.foldl (fun a p => updateStatus a p.1 p.2) st) c = some s := by
  induction ops generalizing st with
  | nil => exact hget
  | cons p rest ih =>
    exact ih _ (getCall_updateStatus_of_terminal hget hterm p.1 p.2)

/-- Witness for C1: a concrete outbound call hung up (status `ended`)
survives two later transition attempts unchanged. -/
theorem terminal_status_is_forever_witness :
    getCall
      ([((0 : Nat), CallStatus.connected), (0, CallStatus.dialing)].foldl
        (fun a p => updateStatus a p.1 p.2)
        (hangup (createCall initialRegState .outbound (some "+15551234567")).1 0))
      0 = some ⟨0, .outbound, some "+15551234567", .ended⟩ :=
  terminal_status_is_forever _ 0 _ _ (by decide) (by decide)

theorem getCall_hangup (st : RegState) (c : Nat) :
    getCall (hangup st c) c =
      (getCall st c).map (fun s => { s with status := .ended }) := by
  unfold hangup
  cases hd : getCall st c with
  | none => simp [hd]
  | some s =>
    dsimp only
    by_cases he : s.status = CallStatus.ended
    · rw [if_pos he, hd, Option.map_some']
      have : { s with status := CallStatus.ended } = s := by
        cases s; simp_all
      rw [this]
    · rw [if_neg he]
      show ((st.sessions.map _).find? _) = _
      rw [find?_map_comm _ (fun t => by by_cases h : t.callId = c <;> simp [h]) c
        st.sessions]
      rw [show st.sessions.find? (fun s => s.callId = c) = some s from hd]
      have hs : s.callId = c := by simpa using List.find?_some hd
      simp [hs]

theorem hangup_eq_of_none {st : RegState} {c : Nat}
    (h : getCall st c = none) : hangup st c = st := by
  unfold hangup; rw [h]

theorem hangup_eq_of_ended {st : RegState} {c : Nat} {s : Session}
    (h : getCall st c = some s) (he : s.status = .ended) : hangup st c = st := by
  unfold hangup; rw [h]; dsimp only; rw [if_pos he]

/-- C2: hanging up a call twice never raises (hangup is a total function on
registry states) and the second call is a no-op: it leaves the session's
status `ended`, and hanging up an already-ended call changes nothing at
all. -/
theorem hangup_idempotent (st : RegState) (c : Nat) :
    hangup (hangup st c) c = hangup st c ∧
    (∀ s, getCall st c = some s → s.status = .ended → hangup st c = st) ∧
    (∀ s, getCall st c = some s →
      ∃ s', getCall (hangup st c) c = some s' ∧ s'.status = .ended) := by
  refine ⟨?_, ?_, ?_⟩
  · cases hd : getCall (hangup st c) c with
    | none => exact hangup_eq_of_none hd
    | some s' =>
      have hend : s'.status = .ended := by
        rw [getCall_hangup] at hd
        cases hg : getCall st c with
        | none => rw [hg] at hd; cases hd
        | some s =>
          rw [hg, Option.map_some'] at hd
          injection hd with h
          rw [← h]
      exact hangup_eq_of_ended hd hend
  · intro s hget hend
    exact hangup_eq_of_ended hget hend
  · intro s hget
    refine ⟨{ s with status := .ended }, ?_, rfl⟩
    rw [getCall_hangup, hget, Option.map_some']

/-- Witness for C2: hanging up a freshly created concrete call twice — the
second hangup is a no-op, the status is `ended`, and a third hangup of the
already-ended call changes nothing. -/
theorem hangup_idempotent_witness :
    hangup (hangup (createCall initialRegState .outbound (some "+15551234567")).1 0) 0 =
      hangup (createCall initialRegState .outbound (some "+15551234567")).1 0 ∧
    getCall
      (hangup (createCall initialRegState .outbound (some "+15551234567")).1 0) 0 =
      some ⟨0, .outbound, some "+15551234567", .ended⟩ :=
  ⟨(hangup_idempotent (createCall initialRegState .outbound (some "+15551234567")).1 0).1,
   by
    obtain ⟨s', hs', he⟩ :=
      (hangup_idempotent (createCall initialRegState .outbound (some "+15551234567")).1 0).2.2
        ⟨0, .outbound, some "+15551234567", .dialing⟩ (by decide)
    rw [hs']
    have : s' = ⟨0, .outbound, some "+15551234567", .ended⟩ := by
      have h2 := hs'
      rw [getCall_hangup] at h2
      rw [show getCall (createCall initialRegState .outbound (some "+15551234567")).1 0 =
        some ⟨0, .outbound, some "+15551234567", .dialing⟩ from by decide] at h2
      rw [Option.map_some'] at h2
      injection h2 with h3
      exact h3.symm
    rw [this]⟩

theorem updateStatus_nextId (st : RegState) (c : Nat) (new : CallStatus) :
    (updateStatus st c new).nextId = st.nextId := by
  unfold updateStatus
  cases getCall st c with
  | none => rfl
  | some s =>
    dsimp only
    by_cases h : s.status.isTerminal = true
    · rw [if_pos h]
    · rw [if_neg h]

theorem removeCall_nextId (st : RegState) (c : Nat) :
    (removeCall st c).nextId = st.nextId := by
  unfold removeCall
  cases getCall st c with
  | none => rfl
  | some s =>
    dsimp only
    by_cases h : s.status.isTerminal = true
    · rw [if_pos h]
    · rw [if_neg h]

theorem hangup_nextId (st : RegState) (c : Nat) :
    (hangup st c).nextId = st.nextId := by
  unfold hangup
  cases getCall st c with
  | none => rfl
  | some s =>
    dsimp only
    by_cases h : s.status = CallStatus.ended
    · rw [if_pos h]
    · rw [if_neg h]

/-- The identifiers handed out along a trace are bounded below by the
counter and strictly increasing in order of allocation. -/
theorem runOps_ids_mono (ops : List RegOp) :
    ∀ st : RegState,
      (∀ i ∈ (runOps st ops).2, st.nextId ≤ i) ∧
        (runOps st ops).2.Pairwise (· < ·) := by
  induction ops with
  | nil => intro st; exact ⟨(by intro i h; cases h), List.Pairwise.nil⟩
  | cons op rest ih =>
    intro st
    cases op with
    | create d p =>
      obtain ⟨hb, hp⟩ := ih (createCall st d p).1
      have hnext : (createCall st d p).1.nextId = st.nextId + 1 := rfl
      rw [hnext] at hb
      constructor
      · intro i hi
        show st.nextId ≤ i
        rcases List.mem_cons.mp hi with rfl | hi'
        · exact le_refl _
        · exact Nat.le_of_succ_le (hb i hi')
      · exact List.pairwise_cons.mpr
          ⟨fun i hi => Nat.lt_of_succ_le (hb i hi), hp⟩
    | update c s =>
      obtain ⟨hb, hp⟩ := ih (updateStatus st c s)
      rw [updateStatus_nextId] at hb
      exact ⟨hb, hp⟩
    | remove c =>
      obtain ⟨hb, hp⟩ := ih (removeCall st c)
      rw [removeCall_nextId] at hb
      exact ⟨hb, hp⟩
    | hang c =>
      obtain ⟨hb, hp⟩ := ih (hangup st c)
      rw [hangup_nextId] at hb
      exact ⟨hb, hp⟩

/-- C3: along any sequence of registry operations — creations interleaved
with status updates, removals and hangups — the call identifiers returned
by the `createCall` invocations are pairwise distinct: an identifier, once
assigned, is never assigned again, even after the original session is
removed. -/
theorem createCall_ids_distinct (st : RegState) (ops : List RegOp) :
    (runOps st ops).2.Nodup :=
  ((runOps_ids_mono ops st).2).imp Nat.ne_of_lt

/-- In a well-formed registry, the freshly created session is found under
the returned identifier. -/
theorem getCall_createCall (st : RegState) (dir : Direction)
    (phone : Option String) (hwf : st.WF) :
    getCall (createCall st dir phone).1 st.nextId =
      some ⟨st.nextId, dir, phone,
        match dir with | .outbound => .dialing | .inbound => .connecting⟩ := by
  show (st.sessions ++ [_]).find? (fun s : Session => s.callId = st.nextId) = _
  rw [List.find?_append]
  have hleft : st.sessions.find? (fun s => s.callId = st.nextId) = none := by
    rw [List.find?_eq_none]
    intro s hs
    simp only [decide_eq_true_eq]
    exact Nat.ne_of_lt (hwf s hs)
  rw [hleft, Option.none_or, List.find?_cons_of_pos _ (by simp)]

/-- C4: for every inbound webhook payload — malformed ones and ones whose
processing fails internally included — `acceptInboundCall` never lets an
error escape to the webhook layer: the HTTP response it produces is always
200, and an internal failure after a valid notification is recorded as a
terminal (`disconnected`) status on the registered session instead. -/
theorem acceptInboundCall_always_200 (st : RegState) (p : WebhookPayload)
    (hwf : st.WF) :
    (acceptInboundCall st p).2 = 200 ∧
      (p.incomingCallNotification = true → p.answerSucceeds = false →
        ∃ s, getCall (acceptInboundCall st p).1 st.nextId = some s ∧
          s.status.isTerminal = true) := by
  constructor
  · unfold acceptInboundCall
    by_cases hv : p.incomingCallNotification = true
    · rw [if_pos hv]
      dsimp only
      by_cases ha : p.answerSucceeds = true
      · rw [if_pos ha]
      · rw [if_neg ha]
    · rw [if_neg hv]
  · intro hv ha
    unfold acceptInboundCall
    rw [if_pos hv, ha]
    dsimp only
    have hc := getCall_createCall st .inbound p.callerNumber hwf
    refine ⟨⟨st.nextId, .inbound, p.callerNumber, .disconnected⟩, ?_, rfl⟩
    unfold updateStatus
    rw [show (createCall st .inbound p.callerNumber).2 = st.nextId from rfl]
    rw [hc]
    dsimp only
    rw [if_neg (by simp [CallStatus.isTerminal])]
    show ((createCall st .inbound p.callerNumber).1.sessions.map _).find? _ = _
    rw [find?_map_comm _ (fun t => by by_cases h : t.callId = st.nextId <;> simp [h])
      st.nextId]
    rw [show (createCall st .inbound p.callerNumber).1.sessions.find?
      (fun s => s.callId = st.nextId) = some ⟨st.nextId, .inbound, p.callerNumber,
        .connecting⟩ from hc]
    simp

/-- Witness for C4: a concrete valid payload whose answering fails — the
webhook response is 200 and the registered session ends `disconnected`. -/
theorem acceptInboundCall_always_200_witness :
    (acceptInboundCall initialRegState ⟨true, some "+15550000000", false⟩).2 = 200 ∧
      (true = true → false = false →
        ∃ s, getCall
          (acceptInboundCall initialRegState ⟨true, some "+15550000000", false⟩).1
          initialRegState.nextId = some s ∧ s.status.isTerminal = true) :=
  acceptInboundCall_always_200 initialRegState ⟨true, some "+15550000000", false⟩
    (by intro s hs; cases hs)

/-! ## Float32 rounding lemmas -/

theorem rne_intCast (z : ℤ) : rne (z : ℚ) = z := by
  unfold rne
  rw [Int.floor_intCast, sub_self]
  rw [if_pos (by norm_num)]

/-- A rational whose magnitude is `n · 2^e'` with `n < 2^24` is exactly
representable in binary32, so `roundF32` fixes it. -/
theorem roundF32_exact (n : ℕ) (e' : ℤ) {q : ℚ} (h0 : 0 < n) (h24 : n < 2 ^ 24)
    (habs : |q| = (n : ℚ) * 2 ^ e') : roundF32 q = q := by
  have h2 : (0 : ℚ) < 2 := by norm_num
  have hzpow : (0 : ℚ) < 2 ^ e' := zpow_pos h2 e'
  have hapos : (0 : ℚ) < |q| := by
    rw [habs]
    positivity
  have hq0 : q ≠ 0 := by
    intro h
    rw [h, abs_zero] at hapos
    exact lt_irrefl 0 hapos
  unfold roundF32
  rw [if_neg hq0]
  set a := |q| with ha
  set e : ℤ := Int.log 2 a - 23 with he
  -- the binary exponent of a is at most e' + 23
  have hupper : a < (2 : ℚ) ^ (e' + 24) := by
    rw [habs, zpow_add₀ (by norm_num : (2 : ℚ) ≠ 0)]
    calc (n : ℚ) * 2 ^ e' < (2 ^ 24 : ℚ) * 2 ^ e' := by
          apply mul_lt_mul_of_pos_right _ hzpow
          exact_mod_cast h24
      _ = (2 : ℚ) ^ e' * 2 ^ (24 : ℤ) := by
          rw [mul_comm]
          norm_num
  have hlog : Int.log 2 a < e' + 24 := by
    rw [← Int.lt_zpow_iff_log_lt (by norm_num) hapos]
    exact_mod_cast hupper
  have hee : e ≤ e' := by omega
  -- the scaled mantissa is the integer n · 2^(e' - e)
  have hm : a / 2 ^ e = ((n * 2 ^ (e' - e).toNat : ℕ) : ℚ) := by
    have hk : ((e' - e).toNat : ℤ) = e' - e := Int.toNat_of_nonneg (by omega)
    push_cast
    rw [habs]
    rw [div_eq_iff (ne_of_gt (zpow_pos h2 e))]
    rw [mul_assoc, ← zpow_natCast (2 : ℚ) (e' - e).toNat, ← zpow_add₀
      (by norm_num : (2 : ℚ) ≠ 0)]
    rw [show ((e' - e).toNat : ℤ) + e = e' by omega]
  rw [hm, show ((n * 2 ^ (e' - e).toNat : ℕ) : ℚ) =
    (((n * 2 ^ (e' - e).toNat : ℕ) : ℤ) : ℚ) from by push_cast; ring, rne_intCast]
  have hval : (((n * 2 ^ (e' - e).toNat : ℕ) : ℤ) : ℚ) * 2 ^ e = a := by
    have hk : ((e' - e).toNat : ℤ) = e' - e := Int.toNat_of_nonneg (by omega)
    push_cast
    rw [habs, mul_assoc, ← zpow_natCast (2 : ℚ) (e' - e).toNat, ← zpow_add₀
      (by norm_num : (2 : ℚ) ≠ 0)]
    rw [show ((e' - e).toNat : ℤ) + e = e' by omega]
  by_cases hq : q < 0
  · rw [if_pos hq, mul_assoc, hval, ha]
    rw [abs_of_neg hq]
    ring
  · rw [if_neg hq, mul_assoc, hval, ha]
    rw [abs_of_nonneg (le_of_not_lt hq)]
    ring

theorem jsTrunc_intCast (n : ℤ) : jsTrunc (n : ℚ) = n := by
  unfold jsTrunc
  split
  · exact Int.ceil_intCast n
  · exact Int.floor_intCast n

theorem toInt16_intCast (n : ℤ) (h1 : -32768 ≤ n) (h2 : n ≤ 32767) :
    toInt16 (n : ℚ) = n := by
  unfold toInt16
  rw [jsTrunc_intCast]
  split <;> omega

/-- One non-positive sample survives the PCM16 → float32 → PCM16 round
trip: the float32 store of `v / 0x8000` is exact (15-bit magnitude over a
power-of-two divisor), the clamp is the identity on `[-1, 0]`, and the
scale back by `0x8000` recovers `v` before an exact truncation. -/
theorem roundTripSample_nonpos (v : ℤ) (h1 : -32768 ≤ v) (h2 : v ≤ 0) :
    toInt16
      (if max (-1) (min 1 (roundF32 ((v : ℚ) / (if v < 0 then 0x8000 else 0x7FFF)))) < 0
       then max (-1) (min 1 (roundF32 ((v : ℚ) / (if v < 0 then 0x8000 else 0x7FFF)))) * 0x8000
       else max (-1) (min 1 (roundF32 ((v : ℚ) / (if v < 0 then 0x8000 else 0x7FFF)))) * 0x7FFF)
      = v := by
  rcases eq_or_lt_of_le h2 with rfl | hv
  · rw [show ((0 : ℤ) : ℚ) / (if (0 : ℤ) < 0 then (0x8000 : ℚ) else 0x7FFF) = 0 from
        by norm_num,
      show roundF32 0 = 0 from by unfold roundF32; rw [if_pos rfl],
      show min (1 : ℚ) 0 = 0 from min_eq_right (by norm_num),
      show max (-1 : ℚ) 0 = 0 from max_eq_right (by norm_num),
      if_neg (by norm_num : ¬ (0 : ℚ) < 0), zero_mul]
    unfold toInt16
    rw [show jsTrunc 0 = 0 from by unfold jsTrunc; norm_num]
    norm_num
  · rw [if_pos hv]
    have hvq : (v : ℚ) < 0 := by exact_mod_cast hv
    have h1q : (-32768 : ℚ) ≤ (v : ℚ) := by exact_mod_cast h1
    have hq0 : (v : ℚ) / (0x8000 : ℚ) < 0 :=
      div_neg_of_neg_of_pos hvq (by norm_num)
    have htn : (((-v).toNat : ℤ) : ℚ) = ((-v : ℤ) : ℚ) := by
      exact_mod_cast Int.toNat_of_nonneg (by omega : (0 : ℤ) ≤ -v)
    have hround : roundF32 ((v : ℚ) / (0x8000 : ℚ)) = (v : ℚ) / (0x8000 : ℚ) := by
      refine roundF32_exact (-v).toNat (-15) (by omega) (by omega) ?_
      rw [abs_div, abs_of_neg hvq, abs_of_pos (by norm_num : (0 : ℚ) < 0x8000)]
      rw [show (((-v).toNat : ℕ) : ℚ) = (((-v).toNat : ℤ) : ℚ) from by push_cast; ring,
        htn, zpow_neg, show ((2 : ℚ) ^ (15 : ℤ)) = 0x8000 from by norm_num]
      push_cast
      ring
    rw [hround]
    have hm : min 1 ((v : ℚ) / (0x8000 : ℚ)) = (v : ℚ) / (0x8000 : ℚ) :=
      min_eq_right (le_of_lt (lt_of_lt_of_le hq0 zero_le_one))
    have hM : max (-1) ((v : ℚ) / (0x8000 : ℚ)) = (v : ℚ) / (0x8000 : ℚ) := by
      apply max_eq_right
      rw [le_div_iff₀ (by norm_num : (0 : ℚ) < 0x8000)]
      linarith
    rw [hm, hM, if_pos hq0, div_mul_cancel₀ _ (by norm_num : (0x8000 : ℚ) ≠ 0)]
    exact toInt16_intCast v h1 (by omega)

/-- C5 counterexample: the PCM16 round trip is not the identity — sample 1
maps to 1/0x7FFF, whose nearest float32 lies below it, and scaling back and
truncating yields 0, not 1. -/
theorem pcm16_roundTrip_fails_at_one :
    float32ToPcm16 (pcm16ToFloat32 [(1 : ℤ)]) = [0] ∧
      float32ToPcm16 (pcm16ToFloat32 [(1 : ℤ)]) ≠ [1] := by
  have hq : (0 : ℚ) < 1 / 32767 := by norm_num
  have hlog : Int.log 2 ((1 : ℚ) / 32767) = -15 := by
    have hlo : (((2 : ℕ) : ℚ)) ^ (-15 : ℤ) ≤ 1 / 32767 := by
      rw [zpow_neg]
      norm_num
    have hhi : (1 : ℚ) / 32767 < (((2 : ℕ) : ℚ)) ^ (-14 : ℤ) := by
      rw [zpow_neg]
      norm_num
    have hl := (Int.zpow_le_iff_le_log (b := 2) (by norm_num) hq).mp hlo
    have hh := (Int.lt_zpow_iff_log_lt (b := 2) (by norm_num) hq).mp hhi
    omega
  have hdiv : (1 : ℚ) / 32767 / 2 ^ (-38 : ℤ) = 274877906944 / 32767 := by
    rw [zpow_neg, show ((2 : ℚ) ^ (38 : ℤ)) = 274877906944 from by norm_num]
    norm_num
  have hfloor : ⌊(274877906944 : ℚ) / 32767⌋ = 8388864 := by
    rw [Int.floor_eq_iff]
    constructor <;> norm_num
  have hrne : rne ((274877906944 : ℚ) / 32767) = 8388864 := by
    unfold rne
    rw [hfloor, if_pos (by norm_num)]
  have hf32 : roundF32 ((1 : ℚ) / 32767) = 8388864 * 2 ^ (-38 : ℤ) := by
    unfold roundF32
    rw [if_neg (by norm_num : ¬ (1 : ℚ) / 32767 = 0),
      if_neg (by norm_num : ¬ (1 : ℚ) / 32767 < 0),
      abs_of_pos hq, hlog,
      show (-15 : ℤ) - 23 = -38 from by norm_num, hdiv, hrne]
    push_cast
    ring
  have hs : (8388864 : ℚ) * 2 ^ (-38 : ℤ) = 8388864 / 274877906944 := by
    rw [zpow_neg, show ((2 : ℚ) ^ (38 : ℤ)) = 274877906944 from by norm_num]
    norm_num
  have hmain : float32ToPcm16 (pcm16ToFloat32 [(1 : ℤ)]) = [0] := by
    unfold pcm16ToFloat32 float32ToPcm16
    simp only [List.map_cons, List.map_nil]
    congr 1
    rw [if_neg (by norm_num : ¬ (1 : ℤ) < 0),
      show ((1 : ℤ) : ℚ) = 1 from by norm_num, hf32, hs]
    rw [show min (1 : ℚ) (8388864 / 274877906944) = 8388864 / 274877906944 from
        min_eq_right (by norm_num),
      show max (-1 : ℚ) (8388864 / 274877906944) = 8388864 / 274877906944 from
        max_eq_right (by norm_num),
      if_neg (by norm_num : ¬ (8388864 : ℚ) / 274877906944 < 0)]
    unfold toInt16 jsTrunc
    rw [if_neg (by norm_num : ¬ (8388864 : ℚ) / 274877906944 * 0x7FFF < 0)]
    rw [show ⌊(8388864 : ℚ) / 274877906944 * 0x7FFF⌋ = 0 from by
      rw [Int.floor_eq_iff]
      constructor <;> norm_num]
    norm_num
  exact ⟨hmain, by rw [hmain]; decide⟩

/-- C5 (amended): the PCM16 → float32 → PCM16 conversion round-trips
exactly on every non-positive sample in [-32768, 0]; positive samples can
come back one smaller, because the nearest float32 to `v / 0x7FFF` can lie
below it and the `Int16Array` store truncates toward zero. -/
theorem pcm16_roundTrip_nonpos (l : List ℤ)
    (h : ∀ v ∈ l, -32768 ≤ v ∧ v ≤ 0) :
    float32ToPcm16 (pcm16ToFloat32 l) = l := by
  induction l with
  | nil => rfl
  | cons v rest ih =>
    have hv := h v (by simp)
    have hrest : float32ToPcm16 (pcm16ToFloat32 rest) = rest :=
      ih (fun w hw => h w (by simp [hw]))
    show _ :: float32ToPcm16 (pcm16ToFloat32 rest) = v :: rest
    rw [hrest]
    congr 1
    exact roundTripSample_nonpos v hv.1 hv.2

/-- Witness for C5 (amended): a concrete run over [-32768, -1, 0]. -/
theorem pcm16_roundTrip_nonpos_witness :
    float32ToPcm16 (pcm16ToFloat32 [-32768, -1, 0]) = [-32768, -1, 0] :=
  pcm16_roundTrip_nonpos [-32768, -1, 0] (by decide)

theorem floor_le_jsTrunc (q : ℚ) : ⌊q⌋ ≤ jsTrunc q := by
  unfold jsTrunc
  split
  · exact Int.floor_le_ceil q
  · exact le_refl _

theorem jsTrunc_le_ceil (q : ℚ) : jsTrunc q ≤ ⌈q⌉ := by
  unfold jsTrunc
  split
  · exact le_refl _
  · exact Int.floor_le_ceil q

theorem le_jsTrunc {n : ℤ} {q : ℚ} (h : (n : ℚ) ≤ q) : n ≤ jsTrunc q :=
  le_trans (Int.le_floor.mpr h) (floor_le_jsTrunc q)

theorem jsTrunc_le {n : ℤ} {q : ℚ} (h : q ≤ (n : ℚ)) : jsTrunc q ≤ n :=
  le_trans (jsTrunc_le_ceil q) (Int.ceil_le.mpr h)

/-- C10: every element `float32ToPcm16` produces lies in the signed 16-bit
range — the clamp to [-1, 1] bounds the scaled value in
[-0x8000, 0x7FFF] before truncation, so the modulo-2^16 wrap of `ToInt16`
is the identity and no sample overflows. -/
theorem float32ToPcm16_in_range (l : List ℚ) :
    ∀ y ∈ float32ToPcm16 l, -32768 ≤ y ∧ y ≤ 32767 := by
  intro y hy
  unfold float32ToPcm16 at hy
  obtain ⟨x, _, rfl⟩ := List.mem_map.mp hy
  dsimp only
  have hlo : (-1 : ℚ) ≤ max (-1) (min 1 x) := le_max_left _ _
  have hhi : max (-1) (min 1 x) ≤ 1 :=
    max_le (by norm_num) (min_le_left _ _)
  by_cases hneg : max (-1) (min 1 x) < 0
  · rw [if_pos hneg]
    have hp1 : (-32768 : ℚ) ≤ max (-1) (min 1 x) * 0x8000 := by nlinarith
    have hp2 : max (-1) (min 1 x) * 0x8000 ≤ 0 := by nlinarith
    have ht1 : (-32768 : ℤ) ≤ jsTrunc (max (-1) (min 1 x) * 0x8000) :=
      le_jsTrunc (by exact_mod_cast hp1)
    have ht2 : jsTrunc (max (-1) (min 1 x) * 0x8000) ≤ 0 :=
      jsTrunc_le (by exact_mod_cast hp2)
    unfold toInt16
    split <;> omega
  · rw [if_neg hneg]
    push_neg at hneg
    have hp1 : (0 : ℚ) ≤ max (-1) (min 1 x) * 0x7FFF := by nlinarith
    have hp2 : max (-1) (min 1 x) * 0x7FFF ≤ 32767 := by nlinarith
    have ht1 : (0 : ℤ) ≤ jsTrunc (max (-1) (min 1 x) * 0x7FFF) :=
      le_jsTrunc (by exact_mod_cast hp1)
    have ht2 : jsTrunc (max (-1) (min 1 x) * 0x7FFF) ≤ 32767 :=
      jsTrunc_le (by exact_mod_cast hp2)
    unfold toInt16
    split <;> omega

/-- Witness for C10: the sample 3 clamps to 1 and lands on 32767, inside
the 16-bit range. -/
theorem float32ToPcm16_in_range_witness :
    -32768 ≤ (32767 : ℤ) ∧ (32767 : ℤ) ≤ 32767 :=
  float32ToPcm16_in_range [(3 : ℚ)] 32767 (by
    unfold float32ToPcm16
    simp only [List.map_cons, List.map_nil]
    rw [show min (1 : ℚ) 3 = 1 from min_eq_left (by norm_num),
      show max (-1 : ℚ) 1 = 1 from max_eq_right (by norm_num),
      if_neg (by norm_num : ¬ (1 : ℚ) < 0), one_mul]
    rw [show toInt16 (0x7FFF : ℚ) = 32767 from by
      unfold toInt16 jsTrunc
      norm_num]
    simp)

/-! ## Base64 lemmas -/

theorem decChar_encChar_fin : ∀ s : Fin 64, decChar (encChar s.val) = s.val := by
  decide

theorem encChar_ne_pad_fin : ∀ s : Fin 64, encChar s.val ≠ '=' := by
  decide

theorem decChar_encChar {s : ℕ} (h : s < 64) : decChar (encChar s) = s :=
  decChar_encChar_fin ⟨s, h⟩

theorem encChar_ne_pad {s : ℕ} (h : s < 64) : encChar s ≠ '=' :=
  encChar_ne_pad_fin ⟨s, h⟩

/-- Decoding inverts encoding on byte strings. -/
theorem atob_btoa (l : List ℕ) (hb : ∀ b ∈ l, b < 256) : atob (btoa l) = l := by
  induction l using btoa.induct with
  | case1 => rfl
  | case2 b1 =>
    have h1 : b1 < 256 := hb b1 (by simp)
    show atob [encChar (b1 / 4), encChar (b1 % 4 * 16), '=', '='] = [b1]
    unfold atob
    rw [if_pos ⟨rfl, rfl, rfl⟩]
    rw [decChar_encChar (by omega), decChar_encChar (by omega)]
    congr 1
    omega
  | case3 b1 b2 =>
    have h1 : b1 < 256 := hb b1 (by simp)
    have h2 : b2 < 256 := hb b2 (by simp)
    show atob [encChar (b1 / 4), encChar (b1 % 4 * 16 + b2 / 16),
      encChar (b2 % 16 * 4), '='] = [b1, b2]
    unfold atob
    rw [if_neg (fun hc => encChar_ne_pad (by omega) hc.1),
      if_pos ⟨rfl, rfl⟩]
    rw [decChar_encChar (by omega), decChar_encChar (by omega),
      decChar_encChar (by omega)]
    congr 1
    · omega
    · congr 1
      omega
  | case4 b1 b2 b3 rest ih =>
    have h1 : b1 < 256 := hb b1 (by simp)
    have h2 : b2 < 256 := hb b2 (by simp)
    have h3 : b3 < 256 := hb b3 (by simp)
    have hrest : atob (btoa rest) = rest :=
      ih (fun b hb' => hb b (by simp [hb']))
    show atob (encChar (b1 / 4) :: encChar (b1 % 4 * 16 + b2 / 16) ::
      encChar (b2 % 16 * 4 + b3 / 64) :: encChar (b3 % 64) :: btoa rest) =
      b1 :: b2 :: b3 :: rest
    unfold atob
    rw [if_neg (fun hc => encChar_ne_pad (by omega) hc.1),
      if_neg (fun hc => encChar_ne_pad (by omega) hc.1)]
    rw [decChar_encChar (by omega), decChar_encChar (by omega),
      decChar_encChar (by omega), decChar_encChar (by omega), hrest]
    congr 1
    · omega
    · congr 1
      · omega
      · congr 1
        omega

/-- The buffer bytes of an `Int16Array` are bytes. -/
theorem int16sToBytes_lt (s : List ℤ) : ∀ b ∈ int16sToBytes s, b < 256 := by
  induction s with
  | nil => intro b hb; cases hb
  | cons v rest ih =>
    intro b hb
    show b < 256
    rcases List.mem_cons.mp hb with rfl | hb'
    · unfold toUInt16
      omega
    · rcases List.mem_cons.mp hb' with rfl | hb''
      · unfold toUInt16
        omega
      · exact ih b hb''

/-- Reinterpreting the little-endian buffer recovers the samples. -/
theorem bytesToInt16s_int16sToBytes (s : List ℤ)
    (h : ∀ v ∈ s, -32768 ≤ v ∧ v < 32768) :
    bytesToInt16s (int16sToBytes s) = s := by
  induction s with
  | nil => rfl
  | cons v rest ih =>
    have hv := h v (by simp)
    have hrest : bytesToInt16s (int16sToBytes rest) = rest :=
      ih (fun w hw => h w (by simp [hw]))
    show fromUInt16 (toUInt16 v % 256 % 256 + toUInt16 v / 256 % 256 * 256) ::
      bytesToInt16s (int16sToBytes rest) = v :: rest
    rw [hrest]
    congr 1
    unfold fromUInt16 toUInt16
    split <;> omega

/-- C9: the base64 framing of an `Int16Array`'s buffer is lossless —
decoding the encoding returns the same samples, element for element. -/
theorem base64_roundTrip (s : List ℤ)
    (h : ∀ v ∈ s, -32768 ≤ v ∧ v < 32768) :
    base64ToInt16Array (arrayBufferToBase64 s) = s := by
  unfold base64ToInt16Array arrayBufferToBase64
  rw [atob_btoa _ (int16sToBytes_lt s)]
  exact bytesToInt16s_int16sToBytes s h

/-- Witness for C9: a concrete five-sample round trip. -/
theorem base64_roundTrip_witness :
    base64ToInt16Array (arrayBufferToBase64 [1, -2, 32767, -32768, 0]) =
      [1, -2, 32767, -32768, 0] :=
  base64_roundTrip [1, -2, 32767, -32768, 0] (by decide)

/-! ## UI theorems -/

/-- C6: the UI's SSE `transcript` handler appends a fragment to the
displayed transcript exactly when the fragment is final (`partial` false)
and its call identifier equals the currently active call's; and every
partial fragment is ignored — by that handler and by the per-call
transcript-stream consumer alike. -/
theorem transcript_append_iff (cur : Option String) (ev : SSETranscriptEvent)
    (ts : List (String × String)) :
    (handleTranscriptEvent cur ev ts = ts ++ [(ev.role, ev.text)] ↔
      ev.partialFlag = false ∧ some ev.callId = cur) ∧
    (ev.partialFlag = true →
      handleTranscriptEvent cur ev ts = ts ∧
        subscribeToTranscriptsOnMessage ev ts = ts) := by
  refine ⟨⟨?_, ?_⟩, ?_⟩
  · intro h
    by_cases hcond : some ev.callId = cur ∧ ev.partialFlag = false
    · exact ⟨hcond.2, hcond.1⟩
    · unfold handleTranscriptEvent at h
      rw [if_neg hcond] at h
      simp at h
  · intro hc
    unfold handleTranscriptEvent
    rw [if_pos ⟨hc.2, hc.1⟩]
  · intro hp
    constructor
    · unfold handleTranscriptEvent
      rw [if_neg (fun hc => by rw [hp] at hc; exact absurd hc.2 (by simp))]
    · unfold subscribeToTranscriptsOnMessage
      rw [if_neg (fun hc => by rw [hp] at hc; exact absurd hc.2.2 (by simp))]

/-- Witness for C6: a concrete final fragment for the active call is
appended. -/
theorem transcript_append_iff_witness :
    handleTranscriptEvent (some "call-1") ⟨"call-1", "agent", "hello", false⟩ [] =
      [("agent", "hello")] :=
  (transcript_append_iff (some "call-1") ⟨"call-1", "agent", "hello", false⟩ []).1.mpr
    ⟨rfl, rfl⟩

/-- A built-in persona's identifier always resolves to that built-in
record, whatever the custom list holds: the built-ins come first in
`allTypes` and their identifiers are pairwise distinct. -/
theorem getAgentType_builtin (t : AgentType) (ht : t ∈ BUILT_IN_AGENT_TYPES)
    (l : List AgentType) : getAgentType t.id l = some t := by
  unfold getAgentType allTypes
  fin_cases ht
  · rw [show BUILT_IN_AGENT_TYPES ++ l = BUILT_IN_AGENT_TYPES ++ l from rfl]
    unfold BUILT_IN_AGENT_TYPES
    rw [List.cons_append, List.find?_cons_of_pos _ (by decide)]
  · unfold BUILT_IN_AGENT_TYPES
    rw [List.cons_append, List.find?_cons_of_neg _ (by decide),
      List.cons_append, List.find?_cons_of_pos _ (by decide)]
  · unfold BUILT_IN_AGENT_TYPES
    rw [List.cons_append, List.find?_cons_of_neg _ (by decide),
      List.cons_append, List.find?_cons_of_neg _ (by decide),
      List.cons_append, List.find?_cons_of_pos _ (by decide)]
  · unfold BUILT_IN_AGENT_TYPES
    rw [List.cons_append, List.find?_cons_of_neg _ (by decide),
      List.cons_append, List.find?_cons_of_neg _ (by decide),
      List.cons_append, List.find?_cons_of_neg _ (by decide),
      List.cons_append, List.find?_cons_of_pos _ (by decide)]

/-- C7: built-in agent personas are fixed — after any sequence of
`addAgentType`, `updateAgentType` and `deleteAgentType` operations on any
starting custom list, `getAgentType` on a built-in identifier still returns
the unmodified built-in record (the three operations only ever touch the
custom list). -/
theorem builtin_personas_fixed (t : AgentType) (ht : t ∈ BUILT_IN_AGENT_TYPES)
    (l₀ : List AgentType) (ops : List AgentOp) :
    getAgentType t.id (applyAgentOps l₀ ops) = some t :=
  getAgentType_builtin t ht _

/-- Witness for C7: updating and deleting under the first built-in's
identifier leaves its lookup unchanged. -/
theorem builtin_personas_fixed_witness :
    getAgentType (BUILT_IN_AGENT_TYPES.get ⟨0, by decide⟩).id
      (applyAgentOps []
        [.add 17 "mine" "do things", .update "customer_satisfaction" (some "x") none,
         .delete "customer_satisfaction"]) =
      some (BUILT_IN_AGENT_TYPES.get ⟨0, by decide⟩) :=
  builtin_personas_fixed _ (BUILT_IN_AGENT_TYPES.get_mem _ _) []
    [.add 17 "mine" "do things", .update "customer_satisfaction" (some "x") none,
     .delete "customer_satisfaction"]

/-- C8: an outbound-call start with an empty or all-whitespace target
number fails before anything happens — the UI's `startPhoneCall` sets the
error message and issues no HTTP request, and the Orchestrator's
`startOutboundCall` returns `InvalidRequest` with the registry unchanged
and no telephony call placed. -/
theorem empty_number_rejected (ui : UIState) (st : RegState)
    (src : Option String) (telephonyOk : Bool) (target agendaText : String)
    (hui : jsTrim ui.phoneNumber = "") (ht : jsTrim target = "") :
    (startPhoneCall ui).2 = none ∧
    (startPhoneCall ui).1.phoneCallError = some "Please enter a phone number" ∧
    startOutboundCall st src telephonyOk target agendaText =
      (st, .error .invalidRequest, false) := by
  refine ⟨?_, ?_, ?_⟩
  · unfold startPhoneCall
    rw [if_pos hui]
  · unfold startPhoneCall
    rw [if_pos hui]
  · unfold startOutboundCall
    rw [if_pos ht]

/-- Witness for C8: a whitespace-only number on both layers. -/
theorem empty_number_rejected_witness :
    (startPhoneCall ⟨"   ", "agenda", none, false, [], none, ""⟩).2 = none ∧
    (startPhoneCall ⟨"   ", "agenda", none, false, [], none, ""⟩).1.phoneCallError =
      some "Please enter a phone number" ∧
    startOutboundCall initialRegState (some "+15550000000") true "   " "agenda" =
      (initialRegState, .error .invalidRequest, false) :=
  empty_number_rejected ⟨"   ", "agenda", none, false, [], none, ""⟩
    initialRegState (some "+15550000000") true "   " "agenda"
    (by decide) (by decide)

end VoiceLive
